import Mathlib

/-!
Shallow embedding of `lib/vm.js` (Node.js 10.15.3 `vm` module).

The module wraps the native `contextify` binding: compiled scripts
(`Script` / `ContextifyScript`), contextified sandbox objects
(`createContext` / `isContext` / `makeContext`), the run family
(`runInThisContext`, `runInContext`, `runInNewContext`), `compileFunction`,
and the SIGINT detach/re-attach protocol (`sigintHandlersWrap`).

Modelling conventions:
* JS values are `JSValue`; objects, arrays and functions are identified by a
  numeric id, their property tables live in the `VMState` heap
  (`fields : Nat → String → JSValue`, absent properties read as `undefined`).
  JS numbers are modelled as integers (every numeric value the claims
  quantify over is an integer; `Number.isInteger` is true exactly on the
  `number` constructor).
* The native engine (`ContextifyScript` super-calls and the `contextify`
  binding entry points) is an abstract `Engine` record of pure functions
  returning `Except VMError _`; an engine failure of any kind (syntax error,
  timeout, SIGINT interruption, thrown value) is an `Except.error`.
* Process-level SIGINT subscription state is the `sigintListeners` list of
  the `VMState` (listener identities in registration order), and every
  mutation through the public `process` API is logged in `events`
  (`process.removeAllListeners('SIGINT')` and `process.addListener`, the
  latter standing for the public registration path that fires
  `newListener` meta-hooks).
* State-mutating operations return `VMState × Except VMError _` so that
  mutations that happen before a throw are preserved, as in JS.
-/

namespace NodeVM

/-- JS-ish runtime values. Objects, arrays and functions carry a heap id so
that identity (`===`) is meaningful; their contents live in `VMState`. -/
inductive JSValue where
  | undefined
  | null
  | boolean (b : Bool)
  | number (n : Int)
  | string (s : String)
  | object (id : Nat)
  | array (id : Nat)
  | func (id : Nat)
deriving DecidableEq, Repr

/-- `typeof v` as in JS (note `typeof null === 'object'`). -/
def jsTypeof : JSValue → String
  | .undefined => "undefined"
  | .null => "object"
  | .boolean _ => "boolean"
  | .number _ => "number"
  | .string _ => "string"
  | .object _ => "object"
  | .array _ => "object"
  | .func _ => "function"

/-- JS truthiness (`!!v`). -/
def truthy : JSValue → Bool
  | .undefined => false
  | .null => false
  | .boolean b => b
  | .number n => n != 0
  | .string s => s != ""
  | .object _ => true
  | .array _ => true
  | .func _ => true

/-- The heap id of an object or array value, if any. -/
def objId? : JSValue → Option Nat
  | .object i => some i
  | .array i => some i
  | _ => none

/-- `typeof v === 'object' && v !== null`: the check the vm module uses for
"is an object" (objects and arrays; excludes `null` and functions). -/
def isObjNonNull (v : JSValue) : Bool :=
  match v with
  | .object _ => true
  | .array _ => true
  | _ => false

/-- `typeof v === 'string'`. -/
def isString (v : JSValue) : Bool :=
  match v with
  | .string _ => true
  | _ => false

/-- `typeof v === 'boolean'`. -/
def isBool (v : JSValue) : Bool :=
  match v with
  | .boolean _ => true
  | _ => false

/-- String coercion as performed by the template literal in the `Script`
constructor. Default `toString` behaviour is used for objects (the claims
only exercise primitive coercions; overridden `toString`/array joining is
outside the model). -/
def jsToString : JSValue → String
  | .undefined => "undefined"
  | .null => "null"
  | .boolean b => if b then "true" else "false"
  | .number n => toString n
  | .string s => s
  | .object _ => "[object Object]"
  | .array _ => ""
  | .func _ => "function () {}"

/-- Observable `process`-level events around SIGINT subscription.
`newListener l` records a registration through the public path
(`process.addListener`), which is what fires registration meta-hooks. -/
inductive Event where
  | removeAllSigint
  | newListener (l : Nat)
deriving DecidableEq, Repr

/-- Errors raised by the vm layer. `invalidArgType` is
`ERR_INVALID_ARG_TYPE(name, expected)`, `outOfRange` is
`ERR_OUT_OF_RANGE(name, range)`, `notModule` is `ERR_VM_MODULE_NOT_MODULE`,
`typeError` a plain engine TypeError, and `thrown v` an arbitrary thrown
JS value (for example a module's stored link error). -/
inductive VMError where
  | invalidArgType (name expected : String)
  | outOfRange (name range : String)
  | notModule
  | typeError (msg : String)
  | thrown (v : JSValue)
deriving DecidableEq, Repr

/-- The mutable world the vm module acts on: the contextified-object set of
the native binding, the object heap, the `defaultContextNameIndex` counter,
a fresh-id counter for allocation, the `Uint8Array` type tags, and the
process SIGINT subscription state with its event log. -/
structure VMState where
  ctxIds : List Nat
  fields : Nat → String → JSValue
  isU8 : Nat → Bool
  nameIndex : Nat
  nextId : Nat
  sigintListeners : List Nat
  events : List Event

/-- Allocate a fresh object with the given property table. -/
def alloc (st : VMState) (f : String → JSValue) : VMState × JSValue :=
  ({ st with
      nextId := st.nextId + 1,
      fields := fun i => if i = st.nextId then f else st.fields i },
    .object st.nextId)

/-- Property lookup `v[k]` (used for option destructuring); primitives and
absent properties read as `undefined`. -/
def optField (st : VMState) (v : JSValue) : String → JSValue :=
  match v with
  | .object i => st.fields i
  | .array i => st.fields i
  | _ => fun _ => .undefined

/-- `util.types.isUint8Array`. -/
def isUint8Array (st : VMState) (v : JSValue) : Bool :=
  match v with
  | .object i => st.isU8 i
  | _ => false

/-- `process.addListener('SIGINT', l)`: appends the listener and logs the
public-path registration event. -/
def addListenerSigint (st : VMState) (l : Nat) : VMState :=
  { st with
      sigintListeners := st.sigintListeners ++ [l],
      events := st.events ++ [Event.newListener l] }

/-- `process.removeAllListeners('SIGINT')`. -/
def removeAllSigintListeners (st : VMState) : VMState :=
  { st with sigintListeners := [], events := st.events ++ [Event.removeAllSigint] }

/-- `sigintHandlersWrap(fn, thisArg, argsArray)` (vm.js:281-295): snapshot
`process.rawListeners('SIGINT')`, remove them all, run the wrapped native
call, and in a `finally` block re-attach each saved listener through
`process.addListener`. The native call itself never touches the JS
listener list, so it is modelled by its outcome `fnResult`; the `finally`
makes the re-attachment happen on the normal and on every throwing exit
alike, which the single code path here reflects. -/
def sigintHandlersWrap (st : VMState) (fnResult : Except VMError JSValue) :
    VMState × Except VMError JSValue :=
  let sigintListeners := st.sigintListeners
  let st1 := removeAllSigintListeners st
  let st2 := sigintListeners.foldl addListenerSigint st1
  (st2, fnResult)

/-- ToInt32 (`n >> 0`). -/
def toInt32 (n : Int) : Int :=
  (n + 2147483648) % 4294967296 - 2147483648

/-- `validateInteger(prop, propName)` (vm.js:152-159): `Number.isInteger`
else `ERR_INVALID_ARG_TYPE(.., 'integer')`; then `(prop >> 0) !== prop`
gives `ERR_OUT_OF_RANGE(.., '32-bit integer')`. Returns the value for
convenience. -/
def validateInteger (v : JSValue) (propName : String) : Except VMError Int :=
  match v with
  | .number n =>
      if toInt32 n = n then .ok n
      else .error (.outOfRange propName "32-bit integer")
  | _ => .error (.invalidArgType propName "integer")

/-- `validateString(prop, propName)` (vm.js:161-164). -/
def validateStringOpt (v : JSValue) (propName : String) : Except VMError Unit :=
  if v ≠ JSValue.undefined && !(isString v) then
    .error (.invalidArgType propName "string")
  else .ok ()

/-- `validateBool(prop, propName)` (vm.js:166-169). -/
def validateBoolOpt (v : JSValue) (propName : String) : Except VMError Unit :=
  if v ≠ JSValue.undefined && !(isBool v) then
    .error (.invalidArgType propName "boolean")
  else .ok ()

/-- `validateObject(prop, propName)` (vm.js:171-174). -/
def validateObjectOpt (v : JSValue) (propName : String) : Except VMError Unit :=
  if v ≠ JSValue.undefined && !(isObjNonNull v) then
    .error (.invalidArgType propName "Object")
  else .ok ()

/-- The native `_isContext` from the `contextify` binding: whether the
object has been contextified. -/
def nativeIsContext (st : VMState) (v : JSValue) : Bool :=
  match objId? v with
  | some i => st.ctxIds.contains i
  | none => false

/-- `isContext(sandbox)` (vm.js:234-239): throws
`ERR_INVALID_ARG_TYPE('sandbox', 'Object')` unless
`typeof sandbox === 'object' && sandbox !== null`, else asks the binding. -/
def isContextF (st : VMState) (v : JSValue) : Except VMError Bool :=
  if !(isObjNonNull v) then .error (.invalidArgType "sandbox" "Object")
  else .ok (nativeIsContext st v)

/-- `validateContext(sandbox)` (vm.js:142-150). -/
def validateContext (st : VMState) (v : JSValue) : Except VMError Unit :=
  if !(isObjNonNull v) then
    .error (.invalidArgType "contextifiedSandbox" "Object")
  else if !(nativeIsContext st v) then
    .error (.invalidArgType "contextifiedSandbox" "vm.Context")
  else .ok ()

/-- The native `makeContext(sandbox, name, origin, strings, wasm)`,
modelled by its sole JS-observable effect: afterwards `_isContext(sandbox)`
is true. -/
def makeContextMark (st : VMState) (sandbox : JSValue) : VMState :=
  match objId? sandbox with
  | some i => { st with ctxIds := i :: st.ctxIds }
  | none => st

/-- The effective context name: `options.name` when present, else the
auto-generated label from `defaultContextNameIndex`. -/
def ctxName (st : VMState) (options : JSValue) : JSValue :=
  if optField st options "name" = JSValue.undefined then
    .string ("VM Context " ++ toString st.nameIndex)
  else optField st options "name"

/-- The `defaultContextNameIndex++` bump, performed exactly when the
default name expression is evaluated (that is, when `options.name` is
absent). -/
def bumpName (st : VMState) (options : JSValue) : VMState :=
  if optField st options "name" = JSValue.undefined then
    { st with nameIndex := st.nameIndex + 1 }
  else st

/-- `options.codeGeneration.strings` after its `= true` default. -/
def cgStrings (st : VMState) (options : JSValue) : JSValue :=
  if optField st (optField st options "codeGeneration") "strings" = JSValue.undefined
  then .boolean true
  else optField st (optField st options "codeGeneration") "strings"

/-- `options.codeGeneration.wasm` after its `= true` default. -/
def cgWasm (st : VMState) (options : JSValue) : JSValue :=
  if optField st (optField st options "codeGeneration") "wasm" = JSValue.undefined
  then .boolean true
  else optField st (optField st options "codeGeneration") "wasm"

/-- The contextifying path of `createContext` (vm.js:247-272), reached
when the sandbox is not already a context: validate the options, derive
the name (the `defaultContextNameIndex++` bump happens only when
`options.name` is absent, before the name type-check, as in the source),
validate origin / codeGeneration / strings / wasm, and call the native
`makeContext`. -/
def contextifyNew (st : VMState) (sandbox options : JSValue) :
    VMState × Except VMError JSValue :=
    if options ≠ JSValue.undefined && !(isObjNonNull options) then
      (st, .error (.invalidArgType "options" "Object"))
    else if !(isString (ctxName st options)) then
      (bumpName st options, .error (.invalidArgType "options.name" "string"))
    else match validateStringOpt (optField st options "origin") "options.origin" with
    | .error e => (bumpName st options, .error e)
    | .ok () =>
      match validateObjectOpt (optField st options "codeGeneration")
          "options.codeGeneration" with
      | .error e => (bumpName st options, .error e)
      | .ok () =>
        if optField st options "codeGeneration" ≠ JSValue.undefined &&
            !(isBool (cgStrings st options)) then
          (bumpName st options,
           .error (.invalidArgType "options.codeGeneration.strings" "boolean"))
        else if optField st options "codeGeneration" ≠ JSValue.undefined &&
            !(isBool (cgWasm st options)) then
          (bumpName st options,
           .error (.invalidArgType "options.codeGeneration.wasm" "boolean"))
        else
          (makeContextMark (bumpName st options) sandbox, .ok sandbox)

/-- `createContext(sandbox = {}, options = {})` (vm.js:242-273). The
caller passes `JSValue.undefined` for an omitted argument; the `{}`
default for `sandbox` is a fresh empty object, the `{}` default for
`options` reads every property as `undefined`. A sandbox that is already
a context is returned unchanged; otherwise `contextifyNew` runs. -/
def createContextF (st0 : VMState) (sandbox0 options : JSValue) :
    VMState × Except VMError JSValue :=
  let (st, sandbox) :=
    if sandbox0 = JSValue.undefined then alloc st0 (fun _ => .undefined)
    else (st0, sandbox0)
  match isContextF st sandbox with
  | .error e => (st, .error e)
  | .ok true => (st, .ok sandbox)
  | .ok false => contextifyNew st sandbox options

/-- The native engine behind the module: the `ContextifyScript` super
constructor and run methods, and the `contextify` binding's
`compileFunction`. Modelled as pure outcome functions (an engine abort —
timeout, interruption — or a thrown value is an `Except.error`); the
engine does not touch the JS-level state in this model. `compileScript`
takes code, filename, lineOffset, columnOffset, cachedData,
produceCachedData, parsingContext, sourceless and yields a script handle;
`runTC h timeout displayErrors breakOnSigint` is
`ContextifyScript.prototype.runInThisContext`, `runIC` additionally takes
the contextified sandbox's id; `compileFn` takes code, filename,
lineOffset, columnOffset, cachedData, produceCachedData, parsingContext,
contextExtensions elements, params. -/
structure Engine where
  compileScript : String → String → Int → Int → JSValue → Bool → JSValue → JSValue →
    Except VMError Nat
  runTC : Nat → Int → Bool → Bool → Except VMError JSValue
  runIC : Nat → Nat → Int → Bool → Bool → Except VMError JSValue
  compileFn : String → String → Int → Int → JSValue → Bool → JSValue → List JSValue →
    JSValue → Except VMError JSValue

/-- A `Script` instance: the JS wrapper around the engine's compiled
representation. (The `callbackMap` entry made for `importModuleDynamically`
is modelled separately by `importCallbackValidate`.) -/
structure Script where
  handle : Nat
deriving DecidableEq, Repr

/-- `new Script(code, options)` (vm.js:44-114). `code` is coerced with a
template literal (never type-checked); a string `options` is the
`{ filename: options }` shorthand; then filename / lineOffset /
columnOffset / cachedData / produceCachedData are validated, the engine
super-constructor runs, and finally `importModuleDynamically` is
type-checked (its `callbackMap` registration carries no further
JS-observable state here). The state is not mutated. -/
def scriptNew (eng : Engine) (st : VMState) (code options : JSValue) :
    Except VMError Script :=
  let codeS := jsToString code
  if options ≠ JSValue.undefined && !(isString options) && !(isObjNonNull options) then
    .error (.invalidArgType "options" "Object")
  else
    let get : String → JSValue :=
      match options with
      | .string s => fun k => if k = "filename" then .string s else .undefined
      | _ => optField st options
    let filename := if get "filename" = JSValue.undefined
                    then JSValue.string "evalmachine.<anonymous>" else get "filename"
    if !(isString filename) then .error (.invalidArgType "options.filename" "string")
    else match validateInteger (if get "lineOffset" = JSValue.undefined then .number 0
                                else get "lineOffset") "options.lineOffset" with
    | .error e => .error e
    | .ok lineOff =>
      match validateInteger (if get "columnOffset" = JSValue.undefined then .number 0
                             else get "columnOffset") "options.columnOffset" with
      | .error e => .error e
      | .ok colOff =>
        let cachedData := get "cachedData"
        if cachedData ≠ JSValue.undefined && !(isUint8Array st cachedData) then
          .error (.invalidArgType "options.cachedData" "Buffer or Uint8Array")
        else
          let pcd := if get "produceCachedData" = JSValue.undefined then JSValue.boolean false
                     else get "produceCachedData"
          if !(isBool pcd) then .error (.invalidArgType "options.produceCachedData" "boolean")
          else
            match eng.compileScript codeS (jsToString filename) lineOff colOff cachedData
                (pcd = JSValue.boolean true) (get "kParsingContext")
                (if get "sourceless" = JSValue.undefined then .boolean false
                 else get "sourceless") with
            | .error e => .error e
            | .ok h =>
              let imd := get "importModuleDynamically"
              if imd ≠ JSValue.undefined && jsTypeof imd ≠ "function" then
                .error (.invalidArgType "options.importModuleDynamically" "function")
              else .ok ⟨h⟩

/-- `getRunInContextArgs(options = {})` (vm.js:176-207): yields
`(timeout, displayErrors, breakOnSigint)`. -/
def getRunInContextArgs (st : VMState) (options : JSValue) :
    Except VMError (Int × Bool × Bool) :=
  if options ≠ JSValue.undefined && !(isObjNonNull options) then
    .error (.invalidArgType "options" "Object")
  else
    let get := optField st options
    match ((match get "timeout" with
           | .undefined => Except.ok (-1 : Int)
           | .number n =>
               if n ≤ 0 then .error (.invalidArgType "options.timeout" "a positive integer")
               else .ok n
           | _ => .error (.invalidArgType "options.timeout" "a positive integer")) :
             Except VMError Int) with
    | .error e => .error e
    | .ok timeout =>
      let displayErrors := if get "displayErrors" = JSValue.undefined then JSValue.boolean true
                           else get "displayErrors"
      let breakOnSigint := if get "breakOnSigint" = JSValue.undefined then JSValue.boolean false
                           else get "breakOnSigint"
      if !(isBool displayErrors) then
        .error (.invalidArgType "options.displayErrors" "boolean")
      else if !(isBool breakOnSigint) then
        .error (.invalidArgType "options.breakOnSigint" "boolean")
      else
        .ok (timeout, displayErrors = JSValue.boolean true, breakOnSigint = JSValue.boolean true)

/-- The pure validation part of `getContextOptions(options)`
(vm.js:209-232), reading the base options through `get` and the
`contextCodeGeneration` object through `cgGet`. -/
def ctxOptionsCheck (get cgGet : String → JSValue) : Except VMError Unit :=
  match validateObjectOpt (get "contextCodeGeneration") "options.contextCodeGeneration" with
  | .error e => .error e
  | .ok () =>
    match validateStringOpt (get "contextName") "options.contextName" with
    | .error e => .error e
    | .ok () =>
      match validateStringOpt (get "contextOrigin") "options.contextOrigin" with
      | .error e => .error e
      | .ok () =>
        if isObjNonNull (get "contextCodeGeneration") then
          match validateBoolOpt (cgGet "strings") "options.contextCodeGeneration.strings" with
          | .error e => .error e
          | .ok () => validateBoolOpt (cgGet "wasm") "options.contextCodeGeneration.wasm"
        else .ok ()

/-- `getContextOptions(options)` (vm.js:209-232): for truthy `options`,
validates and builds the `{name, origin, codeGeneration}` object (the
inner `{strings, wasm}` object is built exactly when
`typeof options.contextCodeGeneration === 'object'`, which after
`validateObject` means it is a non-null object); for falsy `options`
returns a fresh `{}`. Property values are copied at call time, so the
built objects are snapshots, as in JS. (The source interleaves the object
construction between the validations; the construction is pure allocation,
so only the `nextId` of failing calls differs, which nothing observes.) -/
def getContextOptions (st : VMState) (options : JSValue) :
    VMState × Except VMError JSValue :=
  if truthy options then
    let get := optField st options
    let cgGet := optField st (get "contextCodeGeneration")
    match ctxOptionsCheck get cgGet with
    | .error e => (st, .error e)
    | .ok () =>
      if isObjNonNull (get "contextCodeGeneration") then
        let a1 := alloc st
          (fun k => if k = "strings" then cgGet "strings"
                    else if k = "wasm" then cgGet "wasm" else .undefined)
        let a2 := alloc a1.1
          (fun k => if k = "name" then get "contextName"
                    else if k = "origin" then get "contextOrigin"
                    else if k = "codeGeneration" then a1.2 else .undefined)
        (a2.1, .ok a2.2)
      else
        let a1 := alloc st
          (fun k => if k = "name" then get "contextName"
                    else if k = "origin" then get "contextOrigin" else .undefined)
        (a1.1, .ok a1.2)
  else
    let a1 := alloc st (fun _ => .undefined)
    (a1.1, .ok a1.2)

/-- `Script.prototype.runInThisContext(options)` (vm.js:116-123). -/
def scriptRunInThisContext (eng : Engine) (scr : Script) (st : VMState)
    (options : JSValue) : VMState × Except VMError JSValue :=
  match getRunInContextArgs st options with
  | .error e => (st, .error e)
  | .ok (timeout, displayErrors, breakOnSigint) =>
    if breakOnSigint && st.sigintListeners.length != 0 then
      sigintHandlersWrap st (eng.runTC scr.handle timeout displayErrors breakOnSigint)
    else
      (st, eng.runTC scr.handle timeout displayErrors breakOnSigint)

/-- `Script.prototype.runInContext(contextifiedSandbox, options)`
(vm.js:125-134). -/
def scriptRunInContext (eng : Engine) (scr : Script) (st : VMState)
    (ctx options : JSValue) : VMState × Except VMError JSValue :=
  match validateContext st ctx with
  | .error e => (st, .error e)
  | .ok () =>
    match getRunInContextArgs st options with
    | .error e => (st, .error e)
    | .ok (timeout, displayErrors, breakOnSigint) =>
      let cid := (objId? ctx).getD 0
      if breakOnSigint && st.sigintListeners.length != 0 then
        sigintHandlersWrap st (eng.runIC scr.handle cid timeout displayErrors breakOnSigint)
      else
        (st, eng.runIC scr.handle cid timeout displayErrors breakOnSigint)

/-- `Script.prototype.runInNewContext(sandbox, options)` (vm.js:136-139):
`createContext(sandbox, getContextOptions(options))`, then
`this.runInContext(context, options)`. -/
def scriptRunInNewContext (eng : Engine) (scr : Script) (st : VMState)
    (sandbox options : JSValue) : VMState × Except VMError JSValue :=
  let p := getContextOptions st options
  match p.2 with
  | .error e => (p.1, .error e)
  | .ok ctxOpts =>
    let q := createContextF p.1 sandbox ctxOpts
    match q.2 with
    | .error e => (q.1, .error e)
    | .ok context => scriptRunInContext eng scr q.1 context options

/-- `createScript(code, options)` (vm.js:275-277). -/
def createScriptF (eng : Engine) (st : VMState) (code options : JSValue) :
    Except VMError Script :=
  scriptNew eng st code options

/-- `runInContext(code, contextifiedSandbox, options)` (vm.js:297-311):
validate the context, build the real options object (the string shorthand
becomes `{ filename, [kParsingContext]: ctx }`, anything else goes through
`Object.assign({}, options, { [kParsingContext]: ctx })`, a snapshot
copy), then `createScript(code, options).runInContext(ctx, options)`. -/
def runInContextFree (eng : Engine) (st : VMState) (code ctx options : JSValue) :
    VMState × Except VMError JSValue :=
  match validateContext st ctx with
  | .error e => (st, .error e)
  | .ok () =>
    let a :=
      if isString options then
        alloc st (fun k => if k = "filename" then options
                           else if k = "kParsingContext" then ctx else .undefined)
      else
        alloc st (fun k => if k = "kParsingContext" then ctx else optField st options k)
    match scriptNew eng a.1 code a.2 with
    | .error e => (a.1, .error e)
    | .ok scr => scriptRunInContext eng scr a.1 ctx a.2

/-- The `typeof options === 'string'` shorthand shared by the free run
functions: a string becomes a fresh `{ filename: options }` object. -/
def runShorthand (st : VMState) (options : JSValue) : VMState × JSValue :=
  if isString options then
    alloc st (fun k => if k = "filename" then options else .undefined)
  else (st, options)

/-- The body of `runInNewContext` after the string shorthand
(vm.js:317-321): `sandbox = createContext(sandbox,
getContextOptions(options))`, assign `[kParsingContext]`, then
`createScript(code, options).runInNewContext(sandbox, options)`. -/
def runInNewContextTail (eng : Engine) (st0 : VMState) (code sandbox options0 : JSValue) :
    VMState × Except VMError JSValue :=
  let p := getContextOptions st0 options0
  match p.2 with
  | .error e => (p.1, .error e)
  | .ok ctxOpts =>
    let q := createContextF p.1 sandbox ctxOpts
    match q.2 with
    | .error e => (q.1, .error e)
    | .ok sandbox1 =>
      let a := alloc q.1
        (fun k => if k = "kParsingContext" then sandbox1 else optField q.1 options0 k)
      match scriptNew eng a.1 code a.2 with
      | .error e => (a.1, .error e)
      | .ok scr => scriptRunInNewContext eng scr a.1 sandbox1 a.2

/-- `runInNewContext(code, sandbox, options)` (vm.js:313-322). -/
def runInNewContextFree (eng : Engine) (st : VMState) (code sandbox options : JSValue) :
    VMState × Except VMError JSValue :=
  let p := runShorthand st options
  runInNewContextTail eng p.1 code sandbox p.2

/-- `runInThisContext(code, options)` (vm.js:324-329). -/
def runInThisContextFree (eng : Engine) (st : VMState) (code options : JSValue) :
    VMState × Except VMError JSValue :=
  let p := runShorthand st options
  match scriptNew eng p.1 code p.2 with
  | .error e => (p.1, .error e)
  | .ok scr => scriptRunInThisContext eng scr p.1 p.2

/-- Modelled from the spec: `validateUint32` comes from
`internal/validators`, which is not under `src/`. The spec only says the
offsets fail with a range error when not representable as 32-bit values
(sections 6 and 8); the call site's name fixes the range as the unsigned
one, so the standard semantics is modelled: a non-number is
`ERR_INVALID_ARG_TYPE(name, 'number')`, an integer outside `[0, 2^32)` is
`ERR_OUT_OF_RANGE(name, '>= 0 && < 4294967296')`, and values inside pass.
(Integral numbers only, as everywhere in this model.) -/
def validateUint32 (v : JSValue) (name : String) : Except VMError Int :=
  match v with
  | .number n =>
      if 0 ≤ n ∧ n < 4294967296 then .ok n
      else .error (.outOfRange name ">= 0 && < 4294967296")
  | _ => .error (.invalidArgType name "number")

/-- The `params` element check of `compileFunction` (vm.js:339-343). -/
def checkParams : List JSValue → Nat → Except VMError Unit
  | [], _ => .ok ()
  | p :: rest, i =>
      if isString p then checkParams rest (i + 1)
      else .error (.invalidArgType ("params[" ++ toString i ++ "]") "string")

/-- The `contextExtensions` element check of `compileFunction`
(vm.js:395-403): an element fails exactly when `typeof` is not
`'object'`. -/
def checkContextExtensions : List JSValue → Nat → Except VMError Unit
  | [], _ => .ok ()
  | e :: rest, i =>
      if jsTypeof e = "object" then checkContextExtensions rest (i + 1)
      else .error
        (.invalidArgType ("options.contextExtensions[" ++ toString i ++ "]") "object")

/-- Array element list of a value (used for `params` and
`contextExtensions`; the heap keeps array elements per id). -/
structure ArrayHeap where
  elems : Nat → List JSValue

/-- `compileFunction(code, params, options = {})` (vm.js:331-416).
Array-typed inputs carry their elements through `ah`. Destructuring a
`null` options object is a plain TypeError, as in JS; other non-object
options destructure to all-undefined (there is no options type check in
this entry point). No state is mutated. -/
def compileFunctionF (eng : Engine) (st : VMState) (ah : ArrayHeap)
    (code params options : JSValue) : Except VMError JSValue :=
  if !(isString code) then .error (.invalidArgType "code" "string")
  else match ((match params with
              | .undefined => Except.ok ()
              | .array i => checkParams (ah.elems i) 0
              | _ => .error (.invalidArgType "params" "Array")) : Except VMError Unit) with
  | .error e => .error e
  | .ok () =>
    if options = JSValue.null then
      .error (.typeError "Cannot destructure property of null")
    else
      let get := optField st options
      let filename := if get "filename" = JSValue.undefined then JSValue.string ""
                      else get "filename"
      if !(isString filename) then .error (.invalidArgType "options.filename" "string")
      else match validateUint32 (if get "columnOffset" = JSValue.undefined then .number 0
                                 else get "columnOffset") "options.columnOffset" with
      | .error e => .error e
      | .ok colOff =>
        match validateUint32 (if get "lineOffset" = JSValue.undefined then .number 0
                              else get "lineOffset") "options.lineOffset" with
        | .error e => .error e
        | .ok lineOff =>
          let cachedData := get "cachedData"
          if cachedData ≠ JSValue.undefined && !(isUint8Array st cachedData) then
            .error (.invalidArgType "options.cachedData" "Uint8Array")
          else
            let pcd := if get "produceCachedData" = JSValue.undefined then JSValue.boolean false
                       else get "produceCachedData"
            if !(isBool pcd) then
              .error (.invalidArgType "options.produceCachedData" "boolean")
            else
              let parsingContext := get "parsingContext"
              if parsingContext ≠ JSValue.undefined &&
                  (!(isObjNonNull parsingContext) || !(nativeIsContext st parsingContext)) then
                .error (.invalidArgType "options.parsingContext" "Context")
              else
                let ceVal := get "contextExtensions"
                match ((match ceVal with
                       | .undefined => Except.ok ([] : List JSValue)
                       | .array i => .ok (ah.elems i)
                       | _ => .error (.invalidArgType "options.contextExtensions" "Array")) :
                         Except VMError (List JSValue)) with
                | .error e => .error e
                | .ok ceElems =>
                  match checkContextExtensions ceElems 0 with
                  | .error e => .error e
                  | .ok () =>
                    eng.compileFn (jsToString code) (jsToString filename) lineOff colOff
                      cachedData (pcd = JSValue.boolean true) parsingContext ceElems params

/-- The dynamic-import resolver registry around a `Script`: the engine's
module-namespace predicate, the `wrapMap` key set, and the
`linkingStatusMap` from `internal/vm/source_text_module` (none of which
are under `src/`; they are opaque look-up structures here, exactly as the
wrapper code uses them). `m.error` and `m.namespace` are read from the
ordinary object heap. -/
structure ModuleEnv where
  isNamespace : JSValue → Bool
  wrapMap : List Nat
  linkingStatus : Nat → Option String

/-- Whether `wrapMap.has(m)`: only object keys can be present. -/
def wrapMapHas (env : ModuleEnv) (m : JSValue) : Bool :=
  match m with
  | .object i => env.wrapMap.contains i
  | _ => false

/-- The validation wrapper installed around `importModuleDynamically`
(vm.js:101-112), applied to the resolver's (awaited) result `m`:
a recognized module-namespace object is returned as-is; otherwise
`!m || !wrapMap.has(m)` raises `ERR_VM_MODULE_NOT_MODULE`; otherwise an
`'errored'` linking status throws `m.error`, else `m.namespace` is
returned. -/
def importCallbackValidate (st : VMState) (env : ModuleEnv) (m : JSValue) :
    Except VMError JSValue :=
  if env.isNamespace m then .ok m
  else if !(truthy m) || !(wrapMapHas env m) then .error .notModule
  else
    let i := (objId? m).getD 0
    if env.linkingStatus i = some "errored" then .error (.thrown (optField st m "error"))
    else .ok (optField st m "namespace")

/-! ### Helper lemmas -/

theorem foldl_addListenerSigint (ls : List Nat) (s : VMState) :
    ((ls.foldl addListenerSigint s).sigintListeners = s.sigintListeners ++ ls) ∧
    ((ls.foldl addListenerSigint s).events = s.events ++ ls.map Event.newListener) ∧
    ((ls.foldl addListenerSigint s).ctxIds = s.ctxIds) ∧
    ((ls.foldl addListenerSigint s).nameIndex = s.nameIndex) ∧
    ((ls.foldl addListenerSigint s).nextId = s.nextId) ∧
    ((ls.foldl addListenerSigint s).fields = s.fields) := by
  induction ls generalizing s with
  | nil => simp
  | cons a t ih =>
    obtain ⟨h1, h2, h3, h4, h5, h6⟩ := ih (addListenerSigint s a)
    refine ⟨?_, ?_, ?_, ?_, ?_, ?_⟩
    · rw [List.foldl_cons, h1]; simp [addListenerSigint]
    · rw [List.foldl_cons, h2]; simp [addListenerSigint]
    · rw [List.foldl_cons, h3]; rfl
    · rw [List.foldl_cons, h4]; rfl
    · rw [List.foldl_cons, h5]; rfl
    · rw [List.foldl_cons, h6]; rfl

theorem sigintHandlersWrap_spec (st : VMState) (r : Except VMError JSValue) :
    ((sigintHandlersWrap st r).1.sigintListeners = st.sigintListeners) ∧
    ((sigintHandlersWrap st r).1.events =
      st.events ++ Event.removeAllSigint :: st.sigintListeners.map Event.newListener) ∧
    ((sigintHandlersWrap st r).2 = r) ∧
    ((sigintHandlersWrap st r).1.ctxIds = st.ctxIds) ∧
    ((sigintHandlersWrap st r).1.nameIndex = st.nameIndex) ∧
    ((sigintHandlersWrap st r).1.nextId = st.nextId) ∧
    ((sigintHandlersWrap st r).1.fields = st.fields) := by
  obtain ⟨h1, h2, h3, h4, h5, h6⟩ :=
    foldl_addListenerSigint st.sigintListeners (removeAllSigintListeners st)
  have e1 : (sigintHandlersWrap st r).1 =
      List.foldl addListenerSigint (removeAllSigintListeners st) st.sigintListeners := rfl
  refine ⟨?_, ?_, rfl, ?_, ?_, ?_, ?_⟩
  · rw [e1, h1]; simp [removeAllSigintListeners]
  · rw [e1, h2]; simp [removeAllSigintListeners]
  · rw [e1, h3]; rfl
  · rw [e1, h4]; rfl
  · rw [e1, h5]; rfl
  · rw [e1, h6]; rfl

/-! ### Claims C1 and C4: the SIGINT detach/re-attach protocol -/

/-- C1: for every run through `Script.prototype.runInThisContext` or
`Script.prototype.runInContext` with `breakOnSigint` true and at least one
SIGINT listener registered at call time, whatever the engine outcome
(normal return, timeout, interruption, or an engine exception — all
covered by the universally quantified `Engine`): afterwards the listener
list is exactly the original one (count and identities, in order), the
log shows the detach followed by re-registration of exactly the saved
listeners in original order through the public registration path, and the
engine outcome is propagated unchanged. -/
theorem sigint_listeners_restored (eng : Engine) (scr : Script) (st : VMState)
    (options ctx : JSValue) (t : Int) (d : Bool)
    (hopt : getRunInContextArgs st options = .ok (t, d, true))
    (hne : st.sigintListeners ≠ []) :
    ((scriptRunInThisContext eng scr st options).1.sigintListeners = st.sigintListeners ∧
     (scriptRunInThisContext eng scr st options).1.events =
       st.events ++ Event.removeAllSigint :: st.sigintListeners.map Event.newListener ∧
     (scriptRunInThisContext eng scr st options).2 = eng.runTC scr.handle t d true) ∧
    (validateContext st ctx = .ok () →
     ((scriptRunInContext eng scr st ctx options).1.sigintListeners = st.sigintListeners ∧
      (scriptRunInContext eng scr st ctx options).1.events =
        st.events ++ Event.removeAllSigint :: st.sigintListeners.map Event.newListener ∧
      (scriptRunInContext eng scr st ctx options).2 =
        eng.runIC scr.handle ((objId? ctx).getD 0) t d true)) := by
  have hlen : (st.sigintListeners.length != 0) = true := by
    cases h : st.sigintListeners with
    | nil => exact absurd h hne
    | cons a l => simp
  constructor
  · have heq : scriptRunInThisContext eng scr st options =
        sigintHandlersWrap st (eng.runTC scr.handle t d true) := by
      simp only [scriptRunInThisContext, hopt, hlen, Bool.true_and, if_pos]
    rw [heq]
    obtain ⟨h1, h2, h3, _⟩ := sigintHandlersWrap_spec st (eng.runTC scr.handle t d true)
    exact ⟨h1, h2, h3⟩
  · intro hctx
    have heq : scriptRunInContext eng scr st ctx options =
        sigintHandlersWrap st (eng.runIC scr.handle ((objId? ctx).getD 0) t d true) := by
      simp only [scriptRunInContext, hctx, hopt, hlen, Bool.true_and, if_pos]
    rw [heq]
    obtain ⟨h1, h2, h3, _⟩ :=
      sigintHandlersWrap_spec st (eng.runIC scr.handle ((objId? ctx).getD 0) t d true)
    exact ⟨h1, h2, h3⟩

/-- Fixture engine whose outcomes are fixed values. -/
def engDemo : Engine where
  compileScript := fun _ _ _ _ _ _ _ _ => .ok 0
  runTC := fun _ _ _ _ => .ok .undefined
  runIC := fun _ _ _ _ _ => .ok .undefined
  compileFn := fun _ _ _ _ _ _ _ _ _ => .ok (.func 99)

/-- Fixture state: object 5 is a context, object 0 is an options object
with `breakOnSigint: true`, one SIGINT listener (7) is registered. -/
def stC1 : VMState where
  ctxIds := [5]
  fields := fun i k =>
    if i = 0 ∧ k = "breakOnSigint" then .boolean true else .undefined
  isU8 := fun _ => false
  nameIndex := 1
  nextId := 10
  sigintListeners := [7]
  events := []

/-- Witness for C1 at a concrete state, engine, script and options. -/
theorem sigint_listeners_restored_witness :
    getRunInContextArgs stC1 (JSValue.object 0) = .ok (-1, true, true) ∧
    stC1.sigintListeners ≠ [] ∧
    validateContext stC1 (JSValue.object 5) = .ok () ∧
    (scriptRunInThisContext engDemo ⟨0⟩ stC1 (.object 0)).1.sigintListeners =
      stC1.sigintListeners ∧
    (scriptRunInContext engDemo ⟨0⟩ stC1 (.object 5) (.object 0)).1.sigintListeners =
      stC1.sigintListeners :=
  ⟨rfl, by decide, rfl,
   (sigint_listeners_restored engDemo ⟨0⟩ stC1 (.object 0) (.object 5) (-1) true rfl
     (by decide)).1.1,
   ((sigint_listeners_restored engDemo ⟨0⟩ stC1 (.object 0) (.object 5) (-1) true rfl
     (by decide)).2 rfl).1⟩

/-- C4: when `breakOnSigint` resolves to false, or there is no SIGINT
listener at call time, the run methods leave the whole state — in
particular the SIGINT subscription and its event log — untouched. -/
theorem sigint_untouched (eng : Engine) (scr : Script) (st : VMState)
    (options ctx : JSValue) (t : Int) (d b : Bool)
    (hopt : getRunInContextArgs st options = .ok (t, d, b))
    (hq : b = false ∨ st.sigintListeners = []) :
    (scriptRunInThisContext eng scr st options).1 = st ∧
    (scriptRunInContext eng scr st ctx options).1 = st := by
  have hcond : (b && st.sigintListeners.length != 0) = false := by
    rcases hq with h | h
    · simp [h]
    · simp [h]
  constructor
  · simp only [scriptRunInThisContext, hopt, hcond, if_neg, Bool.false_eq_true,
      not_false_iff]
  · unfold scriptRunInContext
    cases h : validateContext st ctx with
    | error e => rfl
    | ok u =>
      simp only [hopt, hcond, if_neg, Bool.false_eq_true, not_false_iff]

/-- Fixture state for C4: one listener, options object 0 has no
`breakOnSigint` property (so it defaults to false). -/
def stC4 : VMState where
  ctxIds := [5]
  fields := fun _ _ => .undefined
  isU8 := fun _ => false
  nameIndex := 1
  nextId := 10
  sigintListeners := [7]
  events := []

/-- Witness for C4 at a concrete state. -/
theorem sigint_untouched_witness :
    getRunInContextArgs stC4 (JSValue.object 0) = .ok (-1, true, false) ∧
    (scriptRunInThisContext engDemo ⟨0⟩ stC4 (.object 0)).1 = stC4 ∧
    (scriptRunInContext engDemo ⟨0⟩ stC4 (.object 5) (.object 0)).1 = stC4 :=
  ⟨rfl,
   (sigint_untouched engDemo ⟨0⟩ stC4 (.object 0) (.object 5) (-1) true false rfl
     (Or.inl rfl)).1,
   (sigint_untouched engDemo ⟨0⟩ stC4 (.object 0) (.object 5) (-1) true false rfl
     (Or.inl rfl)).2⟩

/-! ### Context management: claims C2, C5, C9 -/

@[simp] theorem bumpName_fields (st : VMState) (o : JSValue) :
    (bumpName st o).fields = st.fields := by
  unfold bumpName; split <;> rfl

@[simp] theorem bumpName_nextId (st : VMState) (o : JSValue) :
    (bumpName st o).nextId = st.nextId := by
  unfold bumpName; split <;> rfl

@[simp] theorem bumpName_sigintListeners (st : VMState) (o : JSValue) :
    (bumpName st o).sigintListeners = st.sigintListeners := by
  unfold bumpName; split <;> rfl

@[simp] theorem bumpName_events (st : VMState) (o : JSValue) :
    (bumpName st o).events = st.events := by
  unfold bumpName; split <;> rfl

@[simp] theorem bumpName_ctxIds (st : VMState) (o : JSValue) :
    (bumpName st o).ctxIds = st.ctxIds := by
  unfold bumpName; split <;> rfl

@[simp] theorem makeContextMark_fields (st : VMState) (sb : JSValue) :
    (makeContextMark st sb).fields = st.fields := by
  unfold makeContextMark; cases h : objId? sb <;> rfl

@[simp] theorem makeContextMark_nextId (st : VMState) (sb : JSValue) :
    (makeContextMark st sb).nextId = st.nextId := by
  unfold makeContextMark; cases h : objId? sb <;> rfl

@[simp] theorem makeContextMark_sigintListeners (st : VMState) (sb : JSValue) :
    (makeContextMark st sb).sigintListeners = st.sigintListeners := by
  unfold makeContextMark; cases h : objId? sb <;> rfl

@[simp] theorem makeContextMark_events (st : VMState) (sb : JSValue) :
    (makeContextMark st sb).events = st.events := by
  unfold makeContextMark; cases h : objId? sb <;> rfl

theorem makeContextMark_contains (st : VMState) (sb : JSValue) (i : Nat)
    (h : objId? sb = some i) :
    (makeContextMark st sb).ctxIds.contains i = true := by
  unfold makeContextMark; rw [h]; simp

theorem contextifyNew_ok (st : VMState) (sb opts : JSValue) (st' : VMState) (y : JSValue)
    (h : contextifyNew st sb opts = (st', .ok y)) :
    y = sb ∧ (∀ i, objId? sb = some i → st'.ctxIds.contains i = true) ∧
    st'.fields = st.fields ∧ st'.nextId = st.nextId ∧
    st'.sigintListeners = st.sigintListeners ∧ st'.events = st.events := by
  unfold contextifyNew at h
  split at h
  · simp at h
  · split at h
    · simp at h
    · split at h
      · simp at h
      · split at h
        · simp at h
        · split at h
          · simp at h
          · split at h
            · simp at h
            · rw [Prod.ext_iff] at h
              obtain ⟨hst, hy⟩ := h
              simp only [Except.ok.injEq] at hy
              subst hy
              subst hst
              refine ⟨rfl, ?_, by simp, by simp, by simp, by simp⟩
              intro i hi
              exact makeContextMark_contains _ _ _ hi

theorem createContextF_of_isContext (st : VMState) (x opts : JSValue)
    (h : isContextF st x = .ok true) : createContextF st x opts = (st, .ok x) := by
  have hobj : isObjNonNull x = true := by
    cases hx : isObjNonNull x
    · rw [isContextF, hx] at h; simp at h
    · rfl
  have hxu : ¬(x = JSValue.undefined) := by
    intro he; subst he; simp [isObjNonNull] at hobj
  simp only [createContextF, hxu, if_false, ite_false, h]

theorem createContextF_ok (st : VMState) (x opts : JSValue) (st' : VMState) (y : JSValue)
    (h : createContextF st x opts = (st', .ok y)) :
    isObjNonNull y = true ∧ nativeIsContext st' y = true ∧
    (x ≠ JSValue.undefined → y = x) ∧
    st'.sigintListeners = st.sigintListeners ∧ st'.events = st.events ∧
    st.nextId ≤ st'.nextId ∧ (∀ i, i < st.nextId → st'.fields i = st.fields i) := by
  have main : ∀ (stA : VMState) (sb : JSValue),
      (match isContextF stA sb with
       | Except.error e => (stA, Except.error e)
       | Except.ok true => (stA, Except.ok sb)
       | Except.ok false => contextifyNew stA sb opts) = (st', Except.ok y) →
      isObjNonNull sb = true →
      y = sb ∧ nativeIsContext st' y = true ∧
      st'.sigintListeners = stA.sigintListeners ∧ st'.events = stA.events ∧
      st'.nextId = stA.nextId ∧ st'.fields = stA.fields := by
    intro stA sb hm hob
    have hic : isContextF stA sb = .ok (nativeIsContext stA sb) := by
      simp [isContextF, hob]
    rw [hic] at hm
    cases hnc : nativeIsContext stA sb
    · rw [hnc] at hm
      obtain ⟨hy, hmem, hf, hn, hs, he⟩ := contextifyNew_ok stA sb opts st' y hm
      subst hy
      have hex : ∃ i, objId? y = some i := by
        cases y <;> first | exact ⟨_, rfl⟩ | simp [isObjNonNull] at hob
      obtain ⟨i, hi⟩ := hex
      refine ⟨rfl, ?_, hs, he, hn, hf⟩
      simp only [nativeIsContext, hi]
      simpa using hmem i hi
    · rw [hnc] at hm
      rw [Prod.ext_iff] at hm
      obtain ⟨hst, hy⟩ := hm
      simp only [Except.ok.injEq] at hy
      subst hy; subst hst
      exact ⟨rfl, hnc, rfl, rfl, rfl, rfl⟩
  by_cases hxu : x = JSValue.undefined
  · subst hxu
    have hdef : createContextF st JSValue.undefined opts =
        (match isContextF (alloc st fun _ => JSValue.undefined).1
            (JSValue.object st.nextId) with
         | Except.error e => ((alloc st fun _ => JSValue.undefined).1, Except.error e)
         | Except.ok true =>
             ((alloc st fun _ => JSValue.undefined).1, Except.ok (JSValue.object st.nextId))
         | Except.ok false =>
             contextifyNew (alloc st fun _ => JSValue.undefined).1
               (JSValue.object st.nextId) opts) := rfl
    rw [hdef] at h
    obtain ⟨hy, hnc2, hs, he, hn, hf⟩ := main _ _ h rfl
    subst hy
    refine ⟨rfl, hnc2, fun hc => absurd rfl hc, ?_, ?_, ?_, ?_⟩
    · rw [hs]; rfl
    · rw [he]; rfl
    · rw [hn]; simp [alloc]
    · intro i hi
      rw [hf]
      simp only [alloc]
      rw [if_neg (by omega)]
  · have hdef : createContextF st x opts =
        (match isContextF st x with
         | Except.error e => (st, Except.error e)
         | Except.ok true => (st, Except.ok x)
         | Except.ok false => contextifyNew st x opts) := by
      rw [createContextF, if_neg hxu]
    rw [hdef] at h
    cases hob : isObjNonNull x
    · have hie : isContextF st x = .error (.invalidArgType "sandbox" "Object") := by
        simp [isContextF, hob]
      rw [hie] at h
      simp at h
    · obtain ⟨hy, hnc2, hs, he, hn, hf⟩ := main st x h hob
      subst hy
      exact ⟨hob, hnc2, fun _ => rfl, hs, he, le_of_eq hn.symm, fun i _ => by rw [hf]⟩

/-- C2: a value that is already a recognized context is returned
unchanged, with untouched state; consequently `createContext` is
idempotent on every object: a successful `createContext(x)` returns `x`
itself, and applying `createContext` again (with any options, in
particular the defaulted ones) returns the same object with no further
state change. -/
theorem createContext_idempotent (st : VMState) (x opts : JSValue) :
    (isContextF st x = .ok true → createContextF st x opts = (st, .ok x)) ∧
    (∀ st' y, isObjNonNull x = true → createContextF st x opts = (st', .ok y) →
      y = x ∧ createContextF st' y .undefined = (st', .ok y)) := by
  constructor
  · exact fun h => createContextF_of_isContext st x opts h
  · intro st' y hobj h
    obtain ⟨hoy, hnc, hyx, _⟩ := createContextF_ok st x opts st' y h
    have hxu : x ≠ JSValue.undefined := by
      intro he; subst he; simp [isObjNonNull] at hobj
    have hy : y = x := hyx hxu
    subst hy
    refine ⟨rfl, createContextF_of_isContext st' y .undefined ?_⟩
    simp [isContextF, hoy, hnc]

/-- Witness for C2: object 5 is already a context in `stC1`; object 9 is
not yet one and gets contextified in place. -/
theorem createContext_idempotent_witness :
    (isContextF stC1 (JSValue.object 5) = .ok true ∧
     createContextF stC1 (JSValue.object 5) .undefined = (stC1, .ok (.object 5))) ∧
    (isObjNonNull (JSValue.object 9) = true ∧
     createContextF stC1 (JSValue.object 9) .undefined =
       ((createContextF stC1 (JSValue.object 9) .undefined).1, .ok (.object 9)) ∧
     JSValue.object 9 = JSValue.object 9 ∧
     createContextF (createContextF stC1 (JSValue.object 9) .undefined).1
       (JSValue.object 9) .undefined =
       ((createContextF stC1 (JSValue.object 9) .undefined).1, .ok (.object 9))) :=
  ⟨⟨rfl, (createContext_idempotent stC1 (JSValue.object 5) .undefined).1 rfl⟩,
   ⟨rfl, rfl,
    ((createContext_idempotent stC1 (JSValue.object 9) .undefined).2
      (createContextF stC1 (JSValue.object 9) .undefined).1 (.object 9) rfl rfl).1,
    ((createContext_idempotent stC1 (JSValue.object 9) .undefined).2
      (createContextF stC1 (JSValue.object 9) .undefined).1 (.object 9) rfl rfl).2⟩⟩

/-- C9: `createContext` contextifies a non-context object in place: a
successful call on an object that is not yet a context returns that very
object (same identity), and afterwards the object satisfies the context
predicate. -/
theorem createContext_in_place (st : VMState) (id : Nat) (opts : JSValue)
    (st' : VMState) (y : JSValue)
    (_hnc : isContextF st (.object id) = .ok false)
    (h : createContextF st (.object id) opts = (st', .ok y)) :
    y = JSValue.object id ∧ isContextF st' (.object id) = .ok true := by
  obtain ⟨hoy, hncy, hyx, _⟩ := createContextF_ok st (.object id) opts st' y h
  have hy : y = JSValue.object id := hyx (by intro hc; cases hc)
  subst hy
  exact ⟨rfl, by simp [isContextF, isObjNonNull, hncy]⟩

/-- Witness for C9: object 9 is not a context in `stC1` and gets
contextified in place. -/
theorem createContext_in_place_witness :
    isContextF stC1 (JSValue.object 9) = .ok false ∧
    createContextF stC1 (JSValue.object 9) .undefined =
      ((createContextF stC1 (JSValue.object 9) .undefined).1, .ok (.object 9)) ∧
    isContextF (createContextF stC1 (JSValue.object 9) .undefined).1
      (JSValue.object 9) = .ok true :=
  ⟨rfl, rfl,
   (createContext_in_place stC1 9 .undefined
     (createContextF stC1 (JSValue.object 9) .undefined).1 (.object 9) rfl rfl).2⟩

/-- C5: `isContext` is a total predicate on objects: it throws the
`'sandbox'` type error exactly on inputs that are not non-null objects,
and on every object input it returns a boolean (the native context
predicate) without throwing. -/
theorem isContext_total (st : VMState) (x : JSValue) :
    (isObjNonNull x = true → isContextF st x = .ok (nativeIsContext st x)) ∧
    (isObjNonNull x = false →
      isContextF st x = .error (.invalidArgType "sandbox" "Object")) := by
  constructor <;> intro h <;> simp [isContextF, h]

/-- Witness for C5: an object that is not a context yields `ok false`
(no throw), a context yields `ok true`, and a non-object throws. -/
theorem isContext_total_witness :
    (isObjNonNull (JSValue.object 9) = true ∧
     isContextF stC1 (JSValue.object 9) = .ok (nativeIsContext stC1 (.object 9))) ∧
    (isObjNonNull (JSValue.number 3) = false ∧
     isContextF stC1 (JSValue.number 3) =
       .error (.invalidArgType "sandbox" "Object")) :=
  ⟨⟨rfl, (isContext_total stC1 (JSValue.object 9)).1 rfl⟩,
   ⟨rfl, (isContext_total stC1 (JSValue.number 3)).2 rfl⟩⟩

/-! ### Claim C6: dynamic-import resolver result validation -/

/-- C6: the wrapper around a dynamic-import resolver validates the
resolved value `m` exactly as claimed: a recognized module-namespace
object is returned as-is; a value absent from the wrap map (including
`null`/`undefined`) raises the "not a module" error; a known record whose
link status is `"errored"` raises the record's stored error (`m.error`),
not the "not a module" error; otherwise the record's namespace object
(`m.namespace`) is returned. -/
theorem import_callback_validation (st : VMState) (env : ModuleEnv) (m : JSValue) :
    (env.isNamespace m = true → importCallbackValidate st env m = .ok m) ∧
    (env.isNamespace m = false → wrapMapHas env m = false →
      importCallbackValidate st env m = .error .notModule) ∧
    (∀ i, env.isNamespace (JSValue.object i) = false → env.wrapMap.contains i = true →
      env.linkingStatus i = some "errored" →
      importCallbackValidate st env (.object i) = .error (.thrown (st.fields i "error"))) ∧
    (∀ i, env.isNamespace (JSValue.object i) = false → env.wrapMap.contains i = true →
      env.linkingStatus i ≠ some "errored" →
      importCallbackValidate st env (.object i) = .ok (st.fields i "namespace")) := by
  refine ⟨fun h => by simp [importCallbackValidate, h], fun h1 h2 => ?_, ?_, ?_⟩
  · simp [importCallbackValidate, h1, h2]
  · intro i h1 h2 h3
    have h2m : i ∈ env.wrapMap := by simpa using h2
    simp [importCallbackValidate, wrapMapHas, h1, h2m, h3, truthy, optField, objId?]
  · intro i h1 h2 h3
    have h2m : i ∈ env.wrapMap := by simpa using h2
    simp [importCallbackValidate, wrapMapHas, h1, h2m, h3, truthy, optField, objId?]

/-- Fixture registry for C6: object 1 is a module record in errored
state, object 2 a healthy record, object 3 a module-namespace object. -/
def envC6 : ModuleEnv where
  isNamespace := fun m => m = JSValue.object 3
  wrapMap := [1, 2]
  linkingStatus := fun i => if i = 1 then some "errored" else some "linked"

/-- Witness for C6 on the fixture registry: all four claimed behaviours
at concrete inputs, including `null` and `undefined` resolver results. -/
theorem import_callback_validation_witness :
    (envC6.isNamespace (JSValue.object 3) = true ∧
     importCallbackValidate stC1 envC6 (.object 3) = .ok (.object 3)) ∧
    (envC6.isNamespace JSValue.null = false ∧ wrapMapHas envC6 JSValue.null = false ∧
     importCallbackValidate stC1 envC6 .null = .error .notModule) ∧
    (envC6.isNamespace JSValue.undefined = false ∧
     wrapMapHas envC6 JSValue.undefined = false ∧
     importCallbackValidate stC1 envC6 .undefined = .error .notModule) ∧
    (envC6.linkingStatus 1 = some "errored" ∧
     importCallbackValidate stC1 envC6 (.object 1) =
       .error (.thrown (stC1.fields 1 "error"))) ∧
    (envC6.linkingStatus 2 ≠ some "errored" ∧
     importCallbackValidate stC1 envC6 (.object 2) = .ok (stC1.fields 2 "namespace")) :=
  ⟨⟨rfl, (import_callback_validation stC1 envC6 (.object 3)).1 rfl⟩,
   ⟨rfl, rfl, (import_callback_validation stC1 envC6 .null).2.1 rfl rfl⟩,
   ⟨rfl, rfl, (import_callback_validation stC1 envC6 .undefined).2.1 rfl rfl⟩,
   ⟨rfl, (import_callback_validation stC1 envC6 (.object 1)).2.2.1 1 (by decide) rfl rfl⟩,
   ⟨by decide, (import_callback_validation stC1 envC6 (.object 2)).2.2.2 2 (by decide) rfl
     (by decide)⟩⟩

/-! ### Claim C10: null elements in contextExtensions -/

theorem checkContextExtensions_ok_iff (elems : List JSValue) (i : Nat) :
    checkContextExtensions elems i = .ok () ↔ ∀ v ∈ elems, jsTypeof v = "object" := by
  induction elems generalizing i with
  | nil => simp [checkContextExtensions]
  | cons a t ih =>
    by_cases ha : jsTypeof a = "object"
    · simp [checkContextExtensions, ha, ih (i + 1)]
    · simp [checkContextExtensions, ha]

/-- C10: a `contextExtensions` element fails validation exactly when its
`typeof` is not `'object'`; since `typeof null === 'object'`, a `null`
element passes and the whole (null-containing) element list is forwarded
unchanged to the engine's `compileFunction`. -/
theorem contextExtensions_null_accepted :
    (∀ (elems : List JSValue) (i : Nat),
      checkContextExtensions elems i = .ok () ↔ ∀ v ∈ elems, jsTypeof v = "object") ∧
    jsTypeof JSValue.null = "object" ∧
    (∀ (eng : Engine) (st : VMState) (ah : ArrayHeap) (code : String)
       (oid ceId : Nat) (elems : List JSValue),
      st.fields oid "filename" = JSValue.undefined →
      st.fields oid "columnOffset" = JSValue.undefined →
      st.fields oid "lineOffset" = JSValue.undefined →
      st.fields oid "cachedData" = JSValue.undefined →
      st.fields oid "produceCachedData" = JSValue.undefined →
      st.fields oid "parsingContext" = JSValue.undefined →
      st.fields oid "contextExtensions" = JSValue.array ceId →
      ah.elems ceId = elems →
      (∀ v ∈ elems, jsTypeof v = "object") →
      compileFunctionF eng st ah (.string code) .undefined (.object oid) =
        eng.compileFn code "" 0 0 .undefined false .undefined elems .undefined) := by
  refine ⟨checkContextExtensions_ok_iff, rfl, ?_⟩
  intro eng st ah code oid ceId elems h1 h2 h3 h4 h5 h6 h7 h8 h9
  have hce : checkContextExtensions elems 0 = .ok () :=
    (checkContextExtensions_ok_iff elems 0).mpr h9
  simp [compileFunctionF, optField, h1, h2, h3, h4, h5, h6, h7, h8, hce,
    validateUint32, isString, isBool, jsToString]

/-- Fixture state for C10: object 0 is an options object whose
`contextExtensions` is array 4; the array heap maps 4 to
`[null, object 8]`. -/
def stC10 : VMState where
  ctxIds := []
  fields := fun i k =>
    if i = 0 ∧ k = "contextExtensions" then .array 4 else .undefined
  isU8 := fun _ => false
  nameIndex := 1
  nextId := 10
  sigintListeners := []
  events := []

/-- Array heap for C10. -/
def ahC10 : ArrayHeap where
  elems := fun i => if i = 4 then [JSValue.null, JSValue.object 8] else []

/-- Witness for C10: the null-containing extension list passes validation
and reaches the engine unchanged. -/
theorem contextExtensions_null_accepted_witness :
    stC10.fields 0 "contextExtensions" = JSValue.array 4 ∧
    ahC10.elems 4 = [JSValue.null, JSValue.object 8] ∧
    (∀ v ∈ [JSValue.null, JSValue.object 8], jsTypeof v = "object") ∧
    compileFunctionF engDemo stC10 ahC10 (.string "body") .undefined (.object 0) =
      engDemo.compileFn "body" "" 0 0 .undefined false .undefined
        [JSValue.null, JSValue.object 8] .undefined :=
  ⟨rfl, rfl, by decide,
   contextExtensions_null_accepted.2.2 engDemo stC10 ahC10 "body" 0 4
     [JSValue.null, JSValue.object 8] rfl rfl rfl rfl rfl rfl rfl rfl (by decide)⟩

/-! ### Claim C7 (corrected): non-string code -/

/-- Counterexample to C7 as stated: the `Script` constructor does not
raise an invalid-argument error for non-string code — it succeeds,
because the constructor coerces `code` with a template literal
(vm.js:45) before any check. Here `new Script(123)` compiles fine. -/
theorem nonstring_code_counterexample :
    scriptNew engDemo stC4 (.number 123) .undefined = .ok ⟨0⟩ := rfl

/-- C7 as amended: only `compileFunction` rejects non-string code with
the invalid-argument type error; the `Script` constructor (and with it
`createScript` and the run family, which all go through it) instead
coerces the code value to a string, behaving exactly as if the coerced
string had been passed. -/
theorem nonstring_code_handling :
    (∀ (eng : Engine) (st : VMState) (ah : ArrayHeap) (code params options : JSValue),
      isString code = false →
      compileFunctionF eng st ah code params options =
        .error (.invalidArgType "code" "string")) ∧
    (∀ (eng : Engine) (st : VMState) (code options : JSValue),
      scriptNew eng st code options = scriptNew eng st (.string (jsToString code)) options) := by
  constructor
  · intro eng st ah code params options h
    simp [compileFunctionF, h]
  · intro eng st code options
    rfl

/-- Witness for the amended C7. -/
theorem nonstring_code_handling_witness :
    isString (JSValue.number 123) = false ∧
    compileFunctionF engDemo stC4 ahC10 (.number 123) .undefined .undefined =
      .error (.invalidArgType "code" "string") ∧
    scriptNew engDemo stC4 (.boolean true) .undefined =
      scriptNew engDemo stC4 (.string "true") .undefined :=
  ⟨rfl,
   nonstring_code_handling.1 engDemo stC4 ahC10 (.number 123) .undefined .undefined rfl,
   nonstring_code_handling.2 engDemo stC4 (.boolean true) .undefined⟩

/-! ### Claim C3 (corrected): 32-bit offset validation -/

theorem toInt32_eq_self_iff (n : Int) :
    toInt32 n = n ↔ (-2147483648 ≤ n ∧ n < 2147483648) := by
  unfold toInt32
  omega

theorem toInt32_zero : toInt32 0 = 0 := by decide

/-- Fixture state for C3: object 0 is an options object with
`lineOffset: -1`. -/
def stC3 : VMState where
  ctxIds := []
  fields := fun i k => if i = 0 ∧ k = "lineOffset" then .number (-1) else .undefined
  isU8 := fun _ => false
  nameIndex := 1
  nextId := 10
  sigintListeners := []
  events := []

/-- Counterexample to C3 as stated: `-1` is representable as a signed
32-bit integer, yet `compileFunction` rejects `lineOffset: -1` with an
out-of-range error (its offsets go through `validateUint32`, not
`validateInteger`). -/
theorem offset_range_counterexample :
    ((-2147483648 : Int) ≤ -1 ∧ (-1 : Int) < 2147483648) ∧
    compileFunctionF engDemo stC3 ahC10 (.string "x") .undefined (.object 0) =
      .error (.outOfRange "options.lineOffset" ">= 0 && < 4294967296") :=
  ⟨by decide, rfl⟩

/-- C3 as amended: the `Script` constructor accepts exactly the signed
32-bit range for `lineOffset`/`columnOffset` and fails integer offsets
outside it with an out-of-range error before the engine is consulted
(the engine is universally quantified); `compileFunction` instead
accepts exactly the unsigned 32-bit range `[0, 2^32)` and fails integer
offsets outside it — in particular every negative offset — with an
out-of-range error before the engine is consulted. -/
theorem offset_validation_amended :
    (∀ (n : Int) (name : String), -2147483648 ≤ n ∧ n < 2147483648 →
      validateInteger (.number n) name = .ok n) ∧
    (∀ (n : Int) (name : String), ¬(-2147483648 ≤ n ∧ n < 2147483648) →
      validateInteger (.number n) name = .error (.outOfRange name "32-bit integer")) ∧
    (∀ (eng : Engine) (st : VMState) (oid : Nat) (n : Int),
      st.fields oid "filename" = JSValue.undefined →
      st.fields oid "lineOffset" = JSValue.number n →
      ¬(-2147483648 ≤ n ∧ n < 2147483648) →
      scriptNew eng st (.string "code") (.object oid) =
        .error (.outOfRange "options.lineOffset" "32-bit integer")) ∧
    (∀ (eng : Engine) (st : VMState) (oid : Nat) (n : Int),
      (∀ k, k ≠ "lineOffset" → st.fields oid k = JSValue.undefined) →
      st.fields oid "lineOffset" = JSValue.number n →
      -2147483648 ≤ n ∧ n < 2147483648 →
      scriptNew eng st (.string "code") (.object oid) =
        (eng.compileScript "code" "evalmachine.<anonymous>" n 0 .undefined false
          .undefined (.boolean false)).map (fun h => Script.mk h)) ∧
    (∀ (n : Int) (name : String), 0 ≤ n ∧ n < 4294967296 →
      validateUint32 (.number n) name = .ok n) ∧
    (∀ (n : Int) (name : String), ¬(0 ≤ n ∧ n < 4294967296) →
      validateUint32 (.number n) name =
        .error (.outOfRange name ">= 0 && < 4294967296")) ∧
    (∀ (eng : Engine) (st : VMState) (ah : ArrayHeap) (oid : Nat) (n : Int),
      st.fields oid "filename" = JSValue.undefined →
      st.fields oid "columnOffset" = JSValue.undefined →
      st.fields oid "lineOffset" = JSValue.number n →
      ¬(0 ≤ n ∧ n < 4294967296) →
      compileFunctionF eng st ah (.string "code") .undefined (.object oid) =
        .error (.outOfRange "options.lineOffset" ">= 0 && < 4294967296")) := by
  refine ⟨?_, ?_, ?_, ?_, ?_, ?_, ?_⟩
  · intro n name hr
    have : toInt32 n = n := (toInt32_eq_self_iff n).mpr hr
    simp [validateInteger, this]
  · intro n name hr
    have : ¬(toInt32 n = n) := fun hc => hr ((toInt32_eq_self_iff n).mp hc)
    simp [validateInteger, this]
  · intro eng st oid n h1 h2 hr
    have hni : ¬(toInt32 n = n) := fun hc => hr ((toInt32_eq_self_iff n).mp hc)
    simp [scriptNew, optField, h1, h2, validateInteger, hni, isString, isObjNonNull]
  · intro eng st oid n hk h2 hr
    have hti : toInt32 n = n := (toInt32_eq_self_iff n).mpr hr
    have h1 := hk "filename" (by decide)
    have h3 := hk "columnOffset" (by decide)
    have h4 := hk "cachedData" (by decide)
    have h5 := hk "produceCachedData" (by decide)
    have h6 := hk "kParsingContext" (by decide)
    have h7 := hk "sourceless" (by decide)
    have h8 := hk "importModuleDynamically" (by decide)
    cases heng : eng.compileScript "code" "evalmachine.<anonymous>" n 0 .undefined false
        .undefined (.boolean false) with
    | error e =>
      simp [scriptNew, optField, h1, h2, h3, h4, h5, h6, h7, h8, validateInteger, hti,
        isString, isBool, jsToString, heng, Except.map, isObjNonNull, toInt32_zero]
    | ok hh =>
      simp [scriptNew, optField, h1, h2, h3, h4, h5, h6, h7, h8, validateInteger, hti,
        isString, isBool, jsToString, heng, Except.map, isObjNonNull, toInt32_zero]
  · intro n name hr
    simp [validateUint32, hr]
  · intro n name hr
    simp [validateUint32, hr]
  · intro eng st ah oid n h1 h2 h3 hr
    simp [compileFunctionF, optField, h1, h2, h3, validateUint32, hr, isString]

/-- Witness for the amended C3 at concrete offsets. -/
theorem offset_validation_amended_witness :
    validateInteger (.number (-1)) "options.lineOffset" = .ok (-1) ∧
    validateInteger (.number 2147483648) "options.lineOffset" =
      .error (.outOfRange "options.lineOffset" "32-bit integer") ∧
    validateUint32 (.number (-1)) "options.lineOffset" =
      .error (.outOfRange "options.lineOffset" ">= 0 && < 4294967296") ∧
    scriptNew engDemo stC3 (.string "code") (.object 0) =
      (engDemo.compileScript "code" "evalmachine.<anonymous>" (-1) 0 .undefined false
        .undefined (.boolean false)).map (fun h => Script.mk h) ∧
    compileFunctionF engDemo stC3 ahC10 (.string "code") .undefined (.object 0) =
      .error (.outOfRange "options.lineOffset" ">= 0 && < 4294967296") :=
  ⟨offset_validation_amended.1 (-1) "options.lineOffset" (by decide),
   offset_validation_amended.2.1 2147483648 "options.lineOffset" (by decide),
   offset_validation_amended.2.2.2.2.2.1 (-1) "options.lineOffset" (by decide),
   offset_validation_amended.2.2.2.1 engDemo stC3 0 (-1)
     (by intro k hknd; simp [stC3, hknd]) rfl (by decide),
   offset_validation_amended.2.2.2.2.2.2 engDemo stC3 ahC10 0 (-1) rfl rfl rfl (by decide)⟩

/-! ### Claim C8: the free run functions as compile-then-run compositions -/

/-- The spec-side composition (§4.4) for `runInThisContext`: apply the
string shorthand, compile once with `createScript`, run the unit with the
`runInThisContext` method. -/
def runInThisContextSpec (eng : Engine) (st : VMState) (code options : JSValue) :
    VMState × Except VMError JSValue :=
  let p := runShorthand st options
  match createScriptF eng p.1 code p.2 with
  | .error e => (p.1, .error e)
  | .ok u => scriptRunInThisContext eng u p.1 p.2

/-- The spec-side composition (§4.4) for `runInContext`: validate the
supplied context, build the effective options, compile once with
`createScript`, run the unit in that context with the `runInContext`
method. -/
def runInContextSpec (eng : Engine) (st : VMState) (code ctx options : JSValue) :
    VMState × Except VMError JSValue :=
  match validateContext st ctx with
  | .error e => (st, .error e)
  | .ok () =>
    let a :=
      if isString options then
        alloc st (fun k => if k = "filename" then options
                           else if k = "kParsingContext" then ctx else .undefined)
      else
        alloc st (fun k => if k = "kParsingContext" then ctx else optField st options k)
    match createScriptF eng a.1 code a.2 with
    | .error e => (a.1, .error e)
    | .ok u => scriptRunInContext eng u a.1 ctx a.2

/-- The spec-side composition (§4.4) for `runInNewContext` after the
string shorthand: create (or recognize) a context from the sandbox using
the context options derived from the options, compile the code once, and
run the unit in the resulting context — with no second context
derivation. -/
def runInNewContextSpecTail (eng : Engine) (st0 : VMState)
    (code sandbox options0 : JSValue) : VMState × Except VMError JSValue :=
  let p := getContextOptions st0 options0
  match p.2 with
  | .error e => (p.1, .error e)
  | .ok ctxOpts =>
    let q := createContextF p.1 sandbox ctxOpts
    match q.2 with
    | .error e => (q.1, .error e)
    | .ok context =>
      let a := alloc q.1
        (fun k => if k = "kParsingContext" then context else optField q.1 options0 k)
      match createScriptF eng a.1 code a.2 with
      | .error e => (a.1, .error e)
      | .ok u => scriptRunInContext eng u a.1 context a.2

/-- The spec-side composition for `runInNewContext`. -/
def runInNewContextSpec (eng : Engine) (st : VMState) (code sandbox options : JSValue) :
    VMState × Except VMError JSValue :=
  let p := runShorthand st options
  runInNewContextSpecTail eng p.1 code sandbox p.2

/-- Observational equivalence of run outcomes: same result and same
context registry, name counter, SIGINT subscription and event log. (The
fresh-id counter and the property tables of dead temporary objects may
differ.) -/
def ObsEq (a b : VMState × Except VMError JSValue) : Prop :=
  a.2 = b.2 ∧ a.1.ctxIds = b.1.ctxIds ∧ a.1.nameIndex = b.1.nameIndex ∧
  a.1.sigintListeners = b.1.sigintListeners ∧ a.1.events = b.1.events

theorem obsEq_refl (a : VMState × Except VMError JSValue) : ObsEq a a :=
  ⟨rfl, rfl, rfl, rfl, rfl⟩

/-- The heap of `s'` extends the heap of `s`: ids live in `s` keep their
property tables. -/
def FieldsLe (s s' : VMState) : Prop :=
  s.nextId ≤ s'.nextId ∧ ∀ i, i < s.nextId → s'.fields i = s.fields i

theorem fieldsLe_refl (s : VMState) : FieldsLe s s :=
  ⟨le_refl _, fun _ _ => rfl⟩

theorem fieldsLe_trans {s1 s2 s3 : VMState} (h1 : FieldsLe s1 s2) (h2 : FieldsLe s2 s3) :
    FieldsLe s1 s3 :=
  ⟨le_trans h1.1 h2.1,
   fun i hi => by rw [h2.2 i (lt_of_lt_of_le hi h1.1), h1.2 i hi]⟩

theorem alloc_fieldsLe (st : VMState) (f : String → JSValue) :
    FieldsLe st (alloc st f).1 := by
  refine ⟨by simp [alloc], fun i hi => ?_⟩
  simp only [alloc]
  rw [if_neg (by omega)]

@[simp] theorem alloc_ctxIds (st : VMState) (f : String → JSValue) :
    (alloc st f).1.ctxIds = st.ctxIds := rfl

@[simp] theorem alloc_nameIndex (st : VMState) (f : String → JSValue) :
    (alloc st f).1.nameIndex = st.nameIndex := rfl

@[simp] theorem alloc_sigintListeners (st : VMState) (f : String → JSValue) :
    (alloc st f).1.sigintListeners = st.sigintListeners := rfl

@[simp] theorem alloc_events (st : VMState) (f : String → JSValue) :
    (alloc st f).1.events = st.events := rfl

theorem alloc_optField (st : VMState) (f : String → JSValue) :
    optField (alloc st f).1 (alloc st f).2 = f := by
  simp [alloc, optField]

theorem optField_stable {s s' : VMState} (v : JSValue) (hle : FieldsLe s s')
    (hid : ∀ i, objId? v = some i → i < s.nextId) :
    optField s' v = optField s v := by
  cases v <;> simp only [optField] <;> exact hle.2 _ (hid _ rfl)

theorem getContextOptions_state (st : VMState) (o : JSValue) :
    (getContextOptions st o).1.ctxIds = st.ctxIds ∧
    (getContextOptions st o).1.nameIndex = st.nameIndex ∧
    (getContextOptions st o).1.sigintListeners = st.sigintListeners ∧
    (getContextOptions st o).1.events = st.events ∧
    FieldsLe st (getContextOptions st o).1 := by
  simp only [getContextOptions]
  split
  · split
    · exact ⟨rfl, rfl, rfl, rfl, fieldsLe_refl st⟩
    · split
      · exact ⟨rfl, rfl, rfl, rfl,
          fieldsLe_trans (alloc_fieldsLe st _) (alloc_fieldsLe _ _)⟩
      · exact ⟨rfl, rfl, rfl, rfl, alloc_fieldsLe st _⟩
  · exact ⟨rfl, rfl, rfl, rfl, alloc_fieldsLe st _⟩

theorem getContextOptions_ok_intro (st : VMState) (o : JSValue)
    (htr : truthy o = true)
    (hchk : ctxOptionsCheck (optField st o)
      (optField st (optField st o "contextCodeGeneration")) = .ok ()) :
    ∃ v, (getContextOptions st o).2 = .ok v := by
  unfold getContextOptions
  rw [htr]
  simp only [if_true, hchk]
  split <;> exact ⟨_, rfl⟩

theorem getContextOptions_ok_elim (st : VMState) (o : JSValue)
    (stR : VMState) (v : JSValue)
    (h : getContextOptions st o = (stR, .ok v)) (htr : truthy o = true) :
    ctxOptionsCheck (optField st o)
      (optField st (optField st o "contextCodeGeneration")) = .ok () := by
  unfold getContextOptions at h
  rw [htr] at h
  simp only [if_true] at h
  cases hc : ctxOptionsCheck (optField st o)
      (optField st (optField st o "contextCodeGeneration")) with
  | error e => rw [hc] at h; simp at h
  | ok u => cases u; rfl

theorem ctxOptionsCheck_congr (g1 g2 c1 c2 : String → JSValue)
    (hccg : g1 "contextCodeGeneration" = g2 "contextCodeGeneration")
    (hn : g1 "contextName" = g2 "contextName")
    (ho : g1 "contextOrigin" = g2 "contextOrigin")
    (hs : c1 "strings" = c2 "strings") (hw : c1 "wasm" = c2 "wasm") :
    ctxOptionsCheck g1 c1 = ctxOptionsCheck g2 c2 := by
  unfold ctxOptionsCheck
  rw [hccg, hn, ho, hs, hw]

theorem nativeIsContext_congr {sA sB : VMState} (v : JSValue)
    (h : sA.ctxIds = sB.ctxIds) : nativeIsContext sA v = nativeIsContext sB v := by
  unfold nativeIsContext
  cases objId? v <;> simp [h]

theorem validateContext_congr {sA sB : VMState} (v : JSValue)
    (h : sA.ctxIds = sB.ctxIds) : validateContext sA v = validateContext sB v := by
  unfold validateContext
  rw [nativeIsContext_congr v h]

theorem getRunInContextArgs_congr {sA sB : VMState} (o : JSValue)
    (h : optField sA o = optField sB o) :
    getRunInContextArgs sA o = getRunInContextArgs sB o := by
  unfold getRunInContextArgs
  rw [h]

theorem scriptRunInContext_congr (eng : Engine) (scr : Script) {sA sB : VMState}
    (ctx o : JSValue)
    (hc : sA.ctxIds = sB.ctxIds) (hn : sA.nameIndex = sB.nameIndex)
    (hs : sA.sigintListeners = sB.sigintListeners) (he : sA.events = sB.events)
    (hf : optField sA o = optField sB o) :
    ObsEq (scriptRunInContext eng scr sA ctx o) (scriptRunInContext eng scr sB ctx o) := by
  unfold scriptRunInContext
  rw [validateContext_congr ctx hc, getRunInContextArgs_congr o hf]
  cases hv : validateContext sB ctx with
  | error e => exact ⟨rfl, hc, hn, hs, he⟩
  | ok u =>
    cases u
    cases hr : getRunInContextArgs sB o with
    | error e => exact ⟨rfl, hc, hn, hs, he⟩
    | ok args =>
      obtain ⟨timeout, disp, brk⟩ := args
      dsimp only
      rw [hs]
      by_cases hcond : (brk && sB.sigintListeners.length != 0) = true
      · rw [if_pos hcond, if_pos hcond]
        obtain ⟨wa1, wa2, wa3, wa4, wa5, _⟩ := sigintHandlersWrap_spec sA
          (eng.runIC scr.handle ((objId? ctx).getD 0) timeout disp brk)
        obtain ⟨wb1, wb2, wb3, wb4, wb5, _⟩ := sigintHandlersWrap_spec sB
          (eng.runIC scr.handle ((objId? ctx).getD 0) timeout disp brk)
        exact ⟨by rw [wa3, wb3], by rw [wa4, wb4, hc], by rw [wa5, wb5, hn],
               by rw [wa1, wb1, hs], by rw [wa2, wb2, he, hs]⟩
      · rw [if_neg hcond, if_neg hcond]
        exact ⟨rfl, hc, hn, hs, he⟩

theorem optField_of_falsy (st : VMState) (o : JSValue) (h : truthy o = false) :
    optField st o = fun _ => JSValue.undefined := by
  cases o <;> first | rfl | simp [truthy] at h

/-- The heart of the C8 `runInNewContext` claim: after the string
shorthand, the free function (which ends in the `runInNewContext` method
and hence re-derives the context a second time) is observationally equal
to the single create-context / compile-once / run-in-context composition.
The freshness hypotheses say the ids of the caller's options object and
of its `contextCodeGeneration` object are live heap ids (below the
allocator's fresh-id counter), which is automatic in JS. -/
theorem runInNewContextTail_obsEq (eng : Engine) (st0 : VMState)
    (code sandbox options0 : JSValue)
    (hO : ∀ i, objId? options0 = some i → i < st0.nextId)
    (hC : ∀ i, objId? (optField st0 options0 "contextCodeGeneration") = some i →
        i < st0.nextId) :
    ObsEq (runInNewContextTail eng st0 code sandbox options0)
          (runInNewContextSpecTail eng st0 code sandbox options0) := by
  unfold runInNewContextTail runInNewContextSpecTail createScriptF
  rcases hgo : getContextOptions st0 options0 with ⟨st1, rco⟩
  dsimp only
  obtain ⟨g1, g2, g3, g4, g5⟩ := getContextOptions_state st0 options0
  rw [hgo] at g1 g2 g3 g4 g5
  dsimp only at g1 g2 g3 g4 g5
  cases rco with
  | error e => exact obsEq_refl _
  | ok ctxOpts =>
    dsimp only
    rcases hcc : createContextF st1 sandbox ctxOpts with ⟨st2, rctx⟩
    dsimp only
    cases rctx with
    | error e => exact obsEq_refl _
    | ok sandbox1 =>
      dsimp only
      obtain ⟨c1, c2, _c3, c4, c5, c6, c7⟩ :=
        createContextF_ok st1 sandbox ctxOpts st2 sandbox1 hcc
      have fle12 : FieldsLe st1 st2 := ⟨c6, c7⟩
      have fle02 : FieldsLe st0 st2 := fieldsLe_trans g5 fle12
      have hoptst : optField st2 options0 = optField st0 options0 :=
        optField_stable options0 fle02 hO
      simp only [hoptst]
      set f1 : String → JSValue :=
        fun k => if k = "kParsingContext" then sandbox1 else optField st0 options0 k
        with hf1
      cases hsn : scriptNew eng (alloc st2 f1).1 code (alloc st2 f1).2 with
      | error e => exact obsEq_refl _
      | ok scr =>
        dsimp only
        have hofa : optField (alloc st2 f1).1 (alloc st2 f1).2 = f1 :=
          alloc_optField st2 f1
        have fle23 : FieldsLe st2 (alloc st2 f1).1 := alloc_fieldsLe st2 f1
        have fle03 : FieldsLe st0 (alloc st2 f1).1 := fieldsLe_trans fle02 fle23
        have hccg_f1 : f1 "contextCodeGeneration" =
            optField st0 options0 "contextCodeGeneration" := by
          rw [hf1]
          dsimp only
          rw [if_neg (by decide)]
        have hccg3 : optField (alloc st2 f1).1
              (optField st0 options0 "contextCodeGeneration") =
            optField st0 (optField st0 options0 "contextCodeGeneration") :=
          optField_stable _ fle03 hC
        have hchk0 : ctxOptionsCheck (optField st0 options0)
            (optField st0 (optField st0 options0 "contextCodeGeneration")) = .ok () := by
          by_cases htr : truthy options0 = true
          · exact getContextOptions_ok_elim st0 options0 st1 ctxOpts hgo htr
          · have hfo : optField st0 options0 = fun _ => JSValue.undefined :=
              optField_of_falsy st0 options0 (by simpa using htr)
            rw [hfo]
            rfl
        have hchk3 : ctxOptionsCheck (optField (alloc st2 f1).1 (alloc st2 f1).2)
            (optField (alloc st2 f1).1
              ((optField (alloc st2 f1).1 (alloc st2 f1).2) "contextCodeGeneration")) =
            .ok () := by
          rw [hofa, hccg_f1, hccg3]
          rw [ctxOptionsCheck_congr f1 (optField st0 options0)
            (optField st0 (optField st0 options0 "contextCodeGeneration"))
            (optField st0 (optField st0 options0 "contextCodeGeneration"))
            hccg_f1 (by rw [hf1]; dsimp only; rw [if_neg (by decide)])
            (by rw [hf1]; dsimp only; rw [if_neg (by decide)]) rfl rfl]
          exact hchk0
        have htr1 : truthy (alloc st2 f1).2 = true := rfl
        obtain ⟨v2, hv2⟩ := getContextOptions_ok_intro (alloc st2 f1).1 (alloc st2 f1).2
          htr1 hchk3
        unfold scriptRunInNewContext
        rcases hgo2 : getContextOptions (alloc st2 f1).1 (alloc st2 f1).2 with ⟨st4, rco2⟩
        rw [hgo2] at hv2
        dsimp only at hv2 ⊢
        subst hv2
        dsimp only
        obtain ⟨g1', g2', g3', g4', g5'⟩ :=
          getContextOptions_state (alloc st2 f1).1 (alloc st2 f1).2
        rw [hgo2] at g1' g2' g3' g4' g5'
        dsimp only at g1' g2' g3' g4' g5'
        have hnc4 : nativeIsContext st4 sandbox1 = true := by
          rw [nativeIsContext_congr sandbox1 g1']
          rw [nativeIsContext_congr sandbox1
            (show (alloc st2 f1).1.ctxIds = st2.ctxIds from rfl)]
          exact c2
        have hic4 : isContextF st4 sandbox1 = .ok true := by
          simp [isContextF, c1, hnc4]
        rw [createContextF_of_isContext st4 sandbox1 v2 hic4]
        dsimp only
        refine scriptRunInContext_congr eng scr sandbox1 (alloc st2 f1).2
          g1' g2' g3' g4' ?_
        apply optField_stable (alloc st2 f1).2 g5'
        intro i hi
        have h2 : (some st2.nextId : Option Nat) = some i := by rw [← hi]; rfl
        injection h2 with hieq
        rw [← hieq]
        show st2.nextId < (alloc st2 f1).1.nextId
        simp [alloc]

/-- C8: the free functions `runInThisContext`, `runInContext` and
`runInNewContext` are compile-once-then-run compositions.
`runInThisContext` and `runInContext` are literally the composition of
`createScript` with the corresponding `Script` method (after context
validation and options plumbing); `runInContext` fails with the
`contextifiedSandbox` type error whenever the supplied context is not a
recognized context; and `runInNewContext` is observationally equal to
create-context-from-sandbox (using the context options derived from the
options), compile once, run in the resulting context — the hypotheses
only require the caller's option-object ids to be live heap ids. -/
theorem run_free_compositions (eng : Engine) (st : VMState)
    (code ctx sandbox options : JSValue)
    (hO : ∀ i, objId? options = some i → i < st.nextId)
    (hC : ∀ i, objId? (optField st options "contextCodeGeneration") = some i →
        i < st.nextId) :
    runInThisContextFree eng st code options = runInThisContextSpec eng st code options ∧
    runInContextFree eng st code ctx options = runInContextSpec eng st code ctx options ∧
    (isObjNonNull ctx = false ∨ nativeIsContext st ctx = false →
      ∃ expected, (runInContextFree eng st code ctx options).2 =
        .error (.invalidArgType "contextifiedSandbox" expected)) ∧
    ObsEq (runInNewContextFree eng st code sandbox options)
          (runInNewContextSpec eng st code sandbox options) := by
  refine ⟨rfl, rfl, ?_, ?_⟩
  · intro h
    unfold runInContextFree
    cases hv : validateContext st ctx with
    | error e =>
      have hexp : ∃ expected, e = .invalidArgType "contextifiedSandbox" expected := by
        unfold validateContext at hv
        split at hv
        · exact ⟨"Object", by injection hv with h1; rw [h1]⟩
        · split at hv
          · exact ⟨"vm.Context", by injection hv with h1; rw [h1]⟩
          · cases hv
      obtain ⟨expected, he⟩ := hexp
      exact ⟨expected, by dsimp only; rw [he]⟩
    | ok u =>
      exfalso
      unfold validateContext at hv
      split at hv
      · cases hv
      · split at hv
        · cases hv
        · rcases h with h | h
          · simp_all
          · simp_all
  · unfold runInNewContextFree runInNewContextSpec runShorthand
    by_cases hstr : isString options = true
    · rw [if_pos hstr]
      dsimp only
      apply runInNewContextTail_obsEq
      · intro i hi
        have hieq : i = st.nextId := by
          simpa [alloc, objId?] using hi.symm
        subst hieq
        simp [alloc]
      · intro i hi
        rw [alloc_optField st _] at hi
        rw [if_neg (by decide)] at hi
        simp [objId?] at hi
    · rw [if_neg hstr]
      dsimp only
      exact runInNewContextTail_obsEq eng st code sandbox options hO hC

/-- Witness for C8 at concrete inputs: object 5 is a context in `stC4`,
object 9 is a plain object, object 0 an options object with no
properties. -/
theorem run_free_compositions_witness :
    runInThisContextFree engDemo stC4 (.string "c") (.string "f.js") =
      runInThisContextSpec engDemo stC4 (.string "c") (.string "f.js") ∧
    runInContextFree engDemo stC4 (.string "c") (.object 5) (.object 0) =
      runInContextSpec engDemo stC4 (.string "c") (.object 5) (.object 0) ∧
    (∃ expected, (runInContextFree engDemo stC4 (.string "c") (.object 9) (.object 0)).2 =
      .error (.invalidArgType "contextifiedSandbox" expected)) ∧
    ObsEq (runInNewContextFree engDemo stC4 (.string "c") (.object 9) (.object 0))
          (runInNewContextSpec engDemo stC4 (.string "c") (.object 9) (.object 0)) := by
  have hO : ∀ i, objId? (JSValue.object 0) = some i → i < stC4.nextId := by
    intro i hi
    have hn : stC4.nextId = 10 := rfl
    simp [objId?] at hi
    omega
  have hC : ∀ i,
      objId? (optField stC4 (JSValue.object 0) "contextCodeGeneration") = some i →
      i < stC4.nextId := by
    intro i hi
    simp [optField, stC4, objId?] at hi
  have hOs : ∀ i, objId? (JSValue.string "f.js") = some i → i < stC4.nextId := by
    intro i hi
    simp [objId?] at hi
  have hCs : ∀ i,
      objId? (optField stC4 (JSValue.string "f.js") "contextCodeGeneration") = some i →
      i < stC4.nextId := by
    intro i hi
    simp [optField, objId?] at hi
  refine ⟨(run_free_compositions engDemo stC4 (.string "c") (.object 5) (.object 9)
      (.string "f.js") hOs hCs).1,
    (run_free_compositions engDemo stC4 (.string "c") (.object 5) (.object 9)
      (.object 0) hO hC).2.1,
    (run_free_compositions engDemo stC4 (.string "c") (.object 9) (.object 9)
      (.object 0) hO hC).2.2.1 (Or.inr rfl),
    (run_free_compositions engDemo stC4 (.string "c") (.object 5) (.object 9)
      (.object 0) hO hC).2.2.2⟩

end NodeVM
